import Mathlib

/-!
Verification of the kroctl push/inspect workflow.

Shallow embedding of the Go sources:
- `internal/command/push.go` (file collection and the `RunPush` pipeline),
- `internal/oci/oci.go` (`SetupRepository` transport policy),
- `internal/command/inspect.go` (`RunInspect` rendering).

External library operations (ORAS store, registry transport, JSON, time
parsing) are modelled as environment functions returning `Except`; the
repository's own control flow is translated statement by statement.
-/

/-- Model of Go's `filepath.Ext`: scan the path from the end; stop at a path
separator (`/` on the target OS); return the suffix beginning at the final
dot of the final element, or `""` when there is none. The Go loop is
`for i := len(path)-1; i >= 0 && !os.IsPathSeparator(path[i]); i--`. -/
def extLoop : List Char → List Char → String
  | [], _ => ""
  | c :: rest, acc =>
    if c = '/' then ""
    else if c = '.' then String.mk ('.' :: acc)
    else extLoop rest (c :: acc)

/-- `filepath.Ext` applied to a path string. -/
def filepathExt (p : String) : String :=
  extLoop p.data.reverse []

/-- The extension test from `RunPush`: `ext == ".yaml" || ext == ".yml"`. -/
def isYamlPath (p : String) : Bool :=
  filepathExt p == ".yaml" || filepathExt p == ".yml"

/-- A filesystem subtree as seen by `filepath.Walk`: each node carries the
full path that the walk callback would receive; children are listed in the
traversal order of the walk. -/
inductive Entry where
  | file (path : String)
  | dir (path : String) (children : List Entry)

/-- The directory branch of file collection in `RunPush`
(`filepath.Walk` plus the callback at push.go lines 63-73): visit every
node; append the path when the node is not a directory and its extension
is `.yaml` or `.yml`. Written with an explicit child-list recursion so the
equationally visible order matches the walk order. -/
def walkFiles : Entry → List String
  | .file p => if isYamlPath p then [p] else []
  | .dir _ [] => []
  | .dir n (c :: cs) => walkFiles c ++ walkFiles (.dir n cs)

/-- All non-directory paths of a subtree, in walk order, with no extension
filtering (specification-side yardstick for `walkFiles`). -/
def filesOf : Entry → List String
  | .file p => [p]
  | .dir _ [] => []
  | .dir n (c :: cs) => filesOf c ++ filesOf (.dir n cs)

/-- One `-f` argument of `push` together with what `os.Stat` and the walk
observe for it: the stat fails, or it is a regular file, or it is a
directory with the given children. -/
inductive ArgEntry where
  | missing (name : String)
  | file (name : String)
  | dir (name : String) (children : List Entry)

/-- The file-collection loop of `RunPush` (push.go lines 54-79): per
argument, a failing `os.Stat` aborts with `failed to access ...`; a
directory contributes its walked YAML files; a plain file is appended
verbatim, whatever its extension. Contributions are concatenated in
argument order; nothing is deduplicated. -/
def collectFiles : List ArgEntry → Except String (List String)
  | [] => Except.ok []
  | ArgEntry.missing n :: _ => Except.error ("failed to access " ++ n)
  | ArgEntry.file n :: rest =>
    match collectFiles rest with
    | Except.error e => Except.error e
    | Except.ok r => Except.ok (n :: r)
  | ArgEntry.dir n cs :: rest =>
    match collectFiles rest with
    | Except.error e => Except.error e
    | Except.ok r => Except.ok (walkFiles (Entry.dir n cs) ++ r)

/-- The contribution of a single argument to the collected list (used to
state that collection is plain concatenation). -/
def argFiles : ArgEntry → List String
  | ArgEntry.missing _ => []
  | ArgEntry.file n => [n]
  | ArgEntry.dir n cs => walkFiles (Entry.dir n cs)

/-- An ORAS content descriptor, reduced to the digest that the claims
observe (`v1.Descriptor` of the image-spec library). -/
structure Descriptor where
  digest : String
deriving Repr, DecidableEq

/-- A configured `remote.Repository`, reduced to the fields `RunPush` and
the transport policy read: the parsed host and the `PlainHTTP` flag. -/
structure RemoteRepository where
  host : String
  plainHTTP : Bool
deriving Repr, DecidableEq

/-- Model of Go's `strings.HasPrefix s p`. -/
def stringsHasPrefix (s p : String) : Bool :=
  p.data.isPrefixOf s.data

/-- The transport policy of `SetupRepository` (oci.go lines 27-34) over the
host already parsed out of the reference by the external library:
`PlainHTTP` starts `false` and is set `true` exactly when the host starts
with `localhost:`, `127.0.0.1:` or `::1:`. Reference parsing and the
credential store belong to the external library and are out of scope. -/
def setupRepository (host : String) : RemoteRepository :=
  let repo : RemoteRepository := { host := host, plainHTTP := false }
  if stringsHasPrefix host "localhost:" || stringsHasPrefix host "127.0.0.1:"
      || stringsHasPrefix host "::1:" then
    { repo with plainHTTP := true }
  else
    repo

/-- The external operations `RunPush` calls, as pure fallible functions:
`file.New` (store creation), `store.Add` (staging one file path),
`oras.PackManifest`, `store.Tag`, `oci.SetupRepository` on the reference,
and `oras.Copy`. -/
structure PushEnv where
  newStore : Except String Unit
  storeAdd : String → Except String Descriptor
  packManifest : List Descriptor → Except String Descriptor
  tagManifest : Descriptor → String → Except String Unit
  setupRepo : String → Except String RemoteRepository
  copy : String → Except String Unit

/-- The `PushOptions` of push.go, with each filename paired with what the
filesystem shows for it. -/
structure PushOptions where
  filenames : List ArgEntry
  reference : String

/-- Observable side effects of `RunPush`, recorded in execution order; an
event is recorded when the corresponding external call is attempted. -/
inductive PushEvent where
  | createStore
  | stageFile (path : String)
  | packManifest
  | tagManifest (reference : String)
  | setupRepository
  | copyToRegistry (reference : String)
deriving Repr, DecidableEq

/-- The staging loop of `RunPush` (push.go lines 97-107): add each file to
the store in order, stopping at the first failure; collect the resulting
layer descriptors. Returns the result together with the trace of staging
attempts. -/
def stageAll (env : PushEnv) : List String → Except String (List Descriptor) × List PushEvent
  | [] => (Except.ok [], [])
  | f :: rest =>
    match env.storeAdd f with
    | Except.error e =>
      (Except.error ("failed to add " ++ f ++ " to store: " ++ e), [PushEvent.stageFile f])
    | Except.ok d =>
      match stageAll env rest with
      | (Except.error e, tr) => (Except.error e, PushEvent.stageFile f :: tr)
      | (Except.ok ds, tr) => (Except.ok (d :: ds), PushEvent.stageFile f :: tr)

/-- `RunPush` (push.go lines 50-143): reject an empty `-f` list, collect
files, reject an empty collection, create the store, stage every file,
pack the manifest, tag it with the user-supplied reference, set up the
remote repository, and copy. Each step returns early on error; the second
component is the trace of attempted external operations. -/
def runPush (env : PushEnv) (opts : PushOptions) : Except String Descriptor × List PushEvent :=
  if opts.filenames.isEmpty then
    (Except.error "no files specified, use -f to provide RGD files", [])
  else
    match collectFiles opts.filenames with
    | Except.error e => (Except.error e, [])
    | Except.ok allFiles =>
      if allFiles.isEmpty then
        (Except.error "no YAML files found in specified paths", [])
      else
        match env.newStore with
        | Except.error e =>
          (Except.error ("failed to create file store: " ++ e), [PushEvent.createStore])
        | Except.ok _ =>
          match stageAll env allFiles with
          | (Except.error e, str) => (Except.error e, PushEvent.createStore :: str)
          | (Except.ok layers, str) =>
            match env.packManifest layers with
            | Except.error e =>
              (Except.error ("failed to pack manifest: " ++ e),
                PushEvent.createStore :: str ++ [PushEvent.packManifest])
            | Except.ok manifestDesc =>
              match env.tagManifest manifestDesc opts.reference with
              | Except.error e =>
                (Except.error ("failed to tag manifest: " ++ e),
                  PushEvent.createStore :: str ++
                    [PushEvent.packManifest, PushEvent.tagManifest opts.reference])
              | Except.ok _ =>
                match env.setupRepo opts.reference with
                | Except.error e =>
                  (Except.error e,
                    PushEvent.createStore :: str ++
                      [PushEvent.packManifest, PushEvent.tagManifest opts.reference,
                        PushEvent.setupRepository])
                | Except.ok _ =>
                  match env.copy opts.reference with
                  | Except.error e =>
                    (Except.error ("failed to push artifact: " ++ e),
                      PushEvent.createStore :: str ++
                        [PushEvent.packManifest, PushEvent.tagManifest opts.reference,
                          PushEvent.setupRepository, PushEvent.copyToRegistry opts.reference])
                  | Except.ok _ =>
                    (Except.ok manifestDesc,
                      PushEvent.createStore :: str ++
                        [PushEvent.packManifest, PushEvent.tagManifest opts.reference,
                          PushEvent.setupRepository, PushEvent.copyToRegistry opts.reference])

/-- `v1.AnnotationCreated` of the image-spec library. -/
def AnnotationCreated : String := "org.opencontainers.image.created"

/-- `v1.AnnotationTitle` of the image-spec library. -/
def AnnotationTitle : String := "org.opencontainers.image.title"

/-- An OCI descriptor as `RunInspect` reads it: the digest and the
`Annotations` map, which in Go may be `nil` (`none`) or a present map
(modelled as an association list). -/
structure OCIDescriptor where
  digest : String
  annotations : Option (List (String × String))

/-- The parsed `v1.Manifest` fields `RunInspect` uses. -/
structure Manifest where
  config : OCIDescriptor
  layers : List OCIDescriptor

/-- The parsed registry reference fields read by `RunInspect`:
`repo.Reference.Repository`, `repo.Reference.Reference` (the tag, possibly
empty) and `repo.Reference.Host()`. -/
structure RepoRef where
  repository : String
  reference : String
  host : String

/-- The external operations `RunInspect` calls: `oci.SetupRepository`,
`repo.FetchReference` (returning the manifest descriptor digest),
`io.ReadAll`, `json.Unmarshal` into a manifest, and `time.Parse` with the
RFC3339 layout (returning the re-formatted timestamp on success). -/
structure InspectEnv where
  setupRepo : Except String RepoRef
  fetchReference : Except String String
  readAll : Except String Unit
  unmarshalManifest : Except String Manifest
  parseRFC3339 : String → Option String

/-- The optional `Created:` block of `RunInspect` (inspect.go lines
113-120): printed only when the config has an annotations map, the map has
the created key, and the value parses as RFC3339; otherwise nothing is
printed and no error is reported. -/
def createdLines (parse : String → Option String) (m : Manifest) : List String :=
  match m.config.annotations with
  | none => []
  | some annots =>
    match annots.lookup AnnotationCreated with
    | none => []
    | some created =>
      match parse created with
      | none => []
      | some t => ["Created:   " ++ t]

/-- The per-layer display name of `RunInspect` (inspect.go lines 132-138):
the title annotation when the annotations map exists and has the title
key, else the literal `"unknown"`. -/
def layerName (d : OCIDescriptor) : String :=
  match d.annotations with
  | none => "unknown"
  | some annots =>
    match annots.lookup AnnotationTitle with
    | none => "unknown"
    | some title => title

/-- `RunInspect` (inspect.go lines 69-146): set up the repository, fetch,
read and parse the manifest — each step returning early on error — then
render the report. Output is modelled as the list of printed lines; the
leading `\n` of `Printf("\n...")` appears as an empty line, and a
tabwriter row as `name ++ "\t" ++ digest`. -/
def runInspect (env : InspectEnv) : Except String Unit × List String :=
  match env.setupRepo with
  | Except.error e => (Except.error e, [])
  | Except.ok ref =>
    match env.fetchReference with
    | Except.error e => (Except.error ("failed to fetch manifest: " ++ e), [])
    | Except.ok digest =>
      match env.readAll with
      | Except.error e => (Except.error ("failed to read manifest: " ++ e), [])
      | Except.ok _ =>
        match env.unmarshalManifest with
        | Except.error e => (Except.error ("failed to parse manifest: " ++ e), [])
        | Except.ok manifest =>
          let artifactName :=
            if ref.reference ≠ "" then ref.repository ++ ":" ++ ref.reference
            else ref.repository
          let headerLines :=
            ["Artifact:  " ++ artifactName,
              "Registry:  " ++ ref.host,
              "Digest:    " ++ digest] ++ createdLines env.parseRFC3339 manifest
          if manifest.layers.isEmpty then
            (Except.ok (), headerLines ++ ["", "No ResourceGraphDefinitions found in artifact"])
          else
            (Except.ok (),
              headerLines ++ ["", "ResourceGraphDefinitions:", "Name\tDigest"] ++
                manifest.layers.map (fun l => layerName l ++ "\t" ++ l.digest))

/-- A push environment in which every external operation succeeds
(concrete instance used by witnesses). -/
def envAllOkW : PushEnv where
  newStore := Except.ok ()
  storeAdd := fun p => Except.ok { digest := "sha256:" ++ p }
  packManifest := fun _ => Except.ok { digest := "sha256:manifest" }
  tagManifest := fun _ _ => Except.ok ()
  setupRepo := fun _ => Except.ok { host := "ghcr.io", plainHTTP := false }
  copy := fun _ => Except.ok ()

/-- A push environment whose staging step always fails. -/
def envStageFailW : PushEnv :=
  { envAllOkW with storeAdd := fun _ => Except.error "permission denied" }

/-- Options naming one explicit YAML file. -/
def optsOneFileW : PushOptions where
  filenames := [ArgEntry.file "a.yaml"]
  reference := "ghcr.io/acme/stack:v1"

/-- Options naming a directory that holds no YAML file. -/
def optsNoYamlW : PushOptions where
  filenames := [ArgEntry.dir "rgds" [Entry.file "rgds/readme.md"]]
  reference := "ghcr.io/acme/stack:v1"

/-- Options naming a path that does not exist. -/
def optsMissingW : PushOptions where
  filenames := [ArgEntry.missing "absent.yaml"]
  reference := "ghcr.io/acme/stack:v1"

/-- A parsed reference for the inspect witnesses. -/
def repoRefW : RepoRef where
  repository := "acme/stack"
  reference := "v1"
  host := "ghcr.io"

/-- A fetched manifest with no layers and no config annotations. -/
def manifestEmptyW : Manifest where
  config := { digest := "sha256:cfg", annotations := none }
  layers := []

/-- A fetched manifest with a malformed created annotation and one layer
carrying no annotations map. -/
def manifestNoTitleW : Manifest where
  config := { digest := "sha256:cfg", annotations := some [(AnnotationCreated, "not-a-timestamp")] }
  layers := [{ digest := "sha256:layer0", annotations := none }]

/-- An inspect environment delivering `manifestEmptyW`; its RFC3339 parser
rejects every string. -/
def inspectEnvEmptyW : InspectEnv where
  setupRepo := Except.ok repoRefW
  fetchReference := Except.ok "sha256:mani"
  readAll := Except.ok ()
  unmarshalManifest := Except.ok manifestEmptyW
  parseRFC3339 := fun _ => none

/-- An inspect environment delivering `manifestNoTitleW`. -/
def inspectEnvNoTitleW : InspectEnv :=
  { inspectEnvEmptyW with unmarshalManifest := Except.ok manifestNoTitleW }

theorem walkFiles_eq_filter : ∀ t : Entry, walkFiles t = (filesOf t).filter isYamlPath := by
  intro t
  induction t using walkFiles.induct with
  | case1 p h => simp [walkFiles, filesOf, List.filter, h]
  | case2 p h => simp [walkFiles, filesOf, List.filter, h]
  | case3 n => simp [walkFiles, filesOf]
  | case4 n c cs ih1 ih2 => simp [walkFiles, filesOf, List.filter_append, ih1, ih2]

theorem collectFiles_ok_flatten :
    ∀ (args : List ArgEntry) (res : List String),
      collectFiles args = Except.ok res → res = (args.map argFiles).flatten := by
  intro args
  induction args with
  | nil => intro res h; simp [collectFiles] at h; simp [h.symm]
  | cons a rest ih =>
    intro res h
    cases a with
    | missing n => simp [collectFiles] at h
    | file n =>
      simp only [collectFiles] at h
      cases hr : collectFiles rest with
      | error e => rw [hr] at h; cases h
      | ok r =>
        rw [hr] at h
        cases h
        simp [argFiles, ih r hr]
    | dir n cs =>
      simp only [collectFiles] at h
      cases hr : collectFiles rest with
      | error e => rw [hr] at h; cases h
      | ok r =>
        rw [hr] at h
        cases h
        simp [argFiles, ih r hr]

theorem collectFiles_mem_of_file :
    ∀ (args : List ArgEntry) (res : List String) (n : String),
      collectFiles args = Except.ok res → ArgEntry.file n ∈ args → n ∈ res := by
  intro args
  induction args with
  | nil => intro res n _ hmem; cases hmem
  | cons a rest ih =>
    intro res n h hmem
    cases a with
    | missing m => simp [collectFiles] at h
    | file m =>
      simp only [collectFiles] at h
      cases hr : collectFiles rest with
      | error e => rw [hr] at h; cases h
      | ok r =>
        rw [hr] at h
        cases h
        rcases List.mem_cons.mp hmem with heq | htl
        · cases heq; exact List.mem_cons_self _ _
        · exact List.mem_cons_of_mem _ (ih r n hr htl)
    | dir m cs =>
      simp only [collectFiles] at h
      cases hr : collectFiles rest with
      | error e => rw [hr] at h; cases h
      | ok r =>
        rw [hr] at h
        cases h
        rcases List.mem_cons.mp hmem with heq | htl
        · cases heq
        · exact List.mem_append_right _ (ih r n hr htl)

theorem collectFiles_error_of_missing :
    ∀ (args : List ArgEntry) (n : String),
      ArgEntry.missing n ∈ args →
      ∃ m, ArgEntry.missing m ∈ args ∧
        collectFiles args = Except.error ("failed to access " ++ m) := by
  intro args
  induction args with
  | nil => intro n hmem; cases hmem
  | cons a rest ih =>
    intro n hmem
    cases a with
    | missing m =>
      exact ⟨m, List.mem_cons_self _ _, by simp [collectFiles]⟩
    | file m =>
      rcases List.mem_cons.mp hmem with hcons | htl
      · cases hcons
      · rcases ih n htl with ⟨m2, hm2, herr⟩
        exact ⟨m2, List.mem_cons_of_mem _ hm2, by simp [collectFiles, herr]⟩
    | dir m cs =>
      rcases List.mem_cons.mp hmem with hcons | htl
      · cases hcons
      · rcases ih n htl with ⟨m2, hm2, herr⟩
        exact ⟨m2, List.mem_cons_of_mem _ hm2, by simp [collectFiles, herr]⟩

theorem stageAll_events_stage (env : PushEnv) :
    ∀ (l : List String) (ev : PushEvent),
      ev ∈ (stageAll env l).2 → ∃ f, ev = PushEvent.stageFile f := by
  intro l
  induction l with
  | nil => intro ev h; simp [stageAll] at h
  | cons f rest ih =>
    intro ev h
    simp only [stageAll] at h
    cases hadd : env.storeAdd f with
    | error e =>
      rw [hadd] at h
      simp at h
      exact ⟨f, h⟩
    | ok d =>
      rw [hadd] at h
      cases hrec : stageAll env rest with
      | mk r tr =>
        rw [hrec] at h
        cases r with
        | error e =>
          simp at h
          rcases h with h | h
          · exact ⟨f, h⟩
          · exact ih ev (by rw [hrec]; simpa using h)
        | ok ds =>
          simp at h
          rcases h with h | h
          · exact ⟨f, h⟩
          · exact ih ev (by rw [hrec]; simpa using h)

theorem stageAll_error_of_mem (env : PushEnv) :
    ∀ (l : List String) (f : String) (e : String),
      f ∈ l → env.storeAdd f = Except.error e →
      ∃ msg tr, stageAll env l = (Except.error msg, tr) := by
  intro l
  induction l with
  | nil => intro f e hmem; cases hmem
  | cons g rest ih =>
    intro f e hmem hadd
    cases hg : env.storeAdd g with
    | error e2 =>
      exact ⟨"failed to add " ++ g ++ " to store: " ++ e2, [PushEvent.stageFile g],
        by simp [stageAll, hg]⟩
    | ok d =>
      rcases List.mem_cons.mp hmem with heq | htl
      · cases heq; rw [hadd] at hg; cases hg
      · rcases ih f e htl hadd with ⟨msg, tr, herr⟩
        exact ⟨msg, PushEvent.stageFile g :: tr, by simp [stageAll, hg, herr]⟩

theorem stageAll_ok_mem (env : PushEnv) :
    ∀ (l : List String) (ds : List Descriptor) (tr : List PushEvent),
      stageAll env l = (Except.ok ds, tr) →
      ∀ f ∈ l, (∃ d, env.storeAdd f = Except.ok d) ∧ PushEvent.stageFile f ∈ tr := by
  intro l
  induction l with
  | nil => intro ds tr _ f hmem; cases hmem
  | cons g rest ih =>
    intro ds tr h f hmem
    simp only [stageAll] at h
    cases hg : env.storeAdd g with
    | error e => rw [hg] at h; cases h
    | ok d =>
      rw [hg] at h
      cases hrec : stageAll env rest with
      | mk r tr2 =>
        rw [hrec] at h
        cases r with
        | error e => cases h
        | ok ds2 =>
          cases h
          rcases List.mem_cons.mp hmem with heq | htl
          · cases heq; exact ⟨⟨d, hg⟩, List.mem_cons_self _ _⟩
          · rcases ih ds2 tr2 hrec f htl with ⟨hex, hmem2⟩
            exact ⟨hex, List.mem_cons_of_mem _ hmem2⟩

/-- Claim C2: for every directory argument, the file collection step of
`RunPush` includes exactly the `.yaml`/`.yml` files of that directory —
the walk result is the extension filter of the directory's files,
collection of the directory argument returns exactly that list, and a
path is walked iff it is a file of the tree with a matching extension
(directories are never included, since `filesOf` lists only files). -/
theorem claim_C2_dir_collection_yaml_only (n : String) (cs : List Entry) :
    walkFiles (Entry.dir n cs) = (filesOf (Entry.dir n cs)).filter isYamlPath ∧
    collectFiles [ArgEntry.dir n cs] =
      Except.ok ((filesOf (Entry.dir n cs)).filter isYamlPath) ∧
    ∀ p, p ∈ walkFiles (Entry.dir n cs) ↔
      (p ∈ filesOf (Entry.dir n cs) ∧ isYamlPath p = true) := by
  refine ⟨walkFiles_eq_filter _, ?_, ?_⟩
  · simp [collectFiles, walkFiles_eq_filter]
  · intro p
    rw [walkFiles_eq_filter]
    simp [List.mem_filter]

/-- Claim C3: every argument that names an existing regular file is
included verbatim in the collected list, regardless of extension. -/
theorem claim_C3_explicit_file_included (args : List ArgEntry) (res : List String) (n : String)
    (hok : collectFiles args = Except.ok res) (hmem : ArgEntry.file n ∈ args) :
    n ∈ res :=
  collectFiles_mem_of_file args res n hok hmem

theorem claim_C3_witness :
    collectFiles [ArgEntry.file "notes.txt"] = Except.ok ["notes.txt"] ∧
    "notes.txt" ∈ ["notes.txt"] :=
  ⟨rfl, claim_C3_explicit_file_included [ArgEntry.file "notes.txt"] ["notes.txt"]
    "notes.txt" rfl (by simp)⟩

/-- Claim C4, counterexample: the collected list is not deduplicated —
naming the same file twice yields it twice. -/
theorem claim_C4_counterexample :
    collectFiles [ArgEntry.file "a.yaml", ArgEntry.file "a.yaml"] =
      Except.ok ["a.yaml", "a.yaml"] ∧
    ¬ (["a.yaml", "a.yaml"] : List String).Nodup := by
  exact ⟨rfl, by simp⟩

/-- Claim C4 as amended: the collected list is the plain concatenation of
each argument's contribution in argument order, with no deduplication. -/
theorem claim_C4_collect_concatenation (args : List ArgEntry) (res : List String)
    (hok : collectFiles args = Except.ok res) :
    res = (args.map argFiles).flatten :=
  collectFiles_ok_flatten args res hok

theorem claim_C4_witness :
    (["a.yaml", "a.yaml"] : List String) =
      (([ArgEntry.file "a.yaml", ArgEntry.file "a.yaml"]).map argFiles).flatten :=
  claim_C4_collect_concatenation [ArgEntry.file "a.yaml", ArgEntry.file "a.yaml"]
    ["a.yaml", "a.yaml"] rfl

/-- Claim C5: `SetupRepository` enables plain HTTP exactly when the host
starts with `localhost:`, `127.0.0.1:` or `::1:`; in particular
`localhost:5001` and `127.0.0.1:5000` get plain transport and `ghcr.io`
keeps encrypted transport. -/
theorem claim_C5_plain_http_iff :
    (∀ host : String, (setupRepository host).plainHTTP = true ↔
        (stringsHasPrefix host "localhost:" = true ∨
          stringsHasPrefix host "127.0.0.1:" = true ∨
          stringsHasPrefix host "::1:" = true)) ∧
    (setupRepository "localhost:5001").plainHTTP = true ∧
    (setupRepository "127.0.0.1:5000").plainHTTP = true ∧
    (setupRepository "ghcr.io").plainHTTP = false := by
  refine ⟨?_, by decide, by decide, by decide⟩
  intro host
  by_cases h1 : stringsHasPrefix host "localhost:" = true <;>
    by_cases h2 : stringsHasPrefix host "127.0.0.1:" = true <;>
      by_cases h3 : stringsHasPrefix host "::1:" = true <;>
        simp [setupRepository, h1, h2, h3]

/-- Claim C6: when the path arguments are non-empty but collect no files,
`RunPush` fails with the no-input-files error and an empty effect trace —
in particular before creating the store, setting up the repository, or
copying to the registry. -/
theorem claim_C6_no_input_files (env : PushEnv) (opts : PushOptions)
    (hne : opts.filenames ≠ [])
    (hcol : collectFiles opts.filenames = Except.ok []) :
    runPush env opts = (Except.error "no YAML files found in specified paths", []) ∧
    PushEvent.createStore ∉ (runPush env opts).2 ∧
    PushEvent.setupRepository ∉ (runPush env opts).2 ∧
    (∀ r, PushEvent.copyToRegistry r ∉ (runPush env opts).2) := by
  have hrun : runPush env opts = (Except.error "no YAML files found in specified paths", []) := by
    cases hfn : opts.filenames with
    | nil => exact absurd hfn hne
    | cons a as =>
      rw [hfn] at hcol
      simp [runPush, hfn, hcol]
  refine ⟨hrun, ?_, ?_, ?_⟩ <;> simp [hrun]

theorem claim_C6_witness :
    runPush envAllOkW optsNoYamlW =
      (Except.error "no YAML files found in specified paths", []) ∧
    PushEvent.createStore ∉ (runPush envAllOkW optsNoYamlW).2 ∧
    PushEvent.setupRepository ∉ (runPush envAllOkW optsNoYamlW).2 ∧
    (∀ r, PushEvent.copyToRegistry r ∉ (runPush envAllOkW optsNoYamlW).2) :=
  claim_C6_no_input_files envAllOkW optsNoYamlW (by simp [optsNoYamlW])
    (by simp [optsNoYamlW, collectFiles, walkFiles,
      show isYamlPath "rgds/readme.md" = false from rfl])

/-- Claim C7: when some argument does not exist, `RunPush` fails with the
stat failure of a missing argument and an empty effect trace — no staging
and no push is attempted. -/
theorem claim_C7_path_not_found (env : PushEnv) (opts : PushOptions) (n : String)
    (hmem : ArgEntry.missing n ∈ opts.filenames) :
    ∃ m, ArgEntry.missing m ∈ opts.filenames ∧
      runPush env opts = (Except.error ("failed to access " ++ m), []) ∧
      (∀ f, PushEvent.stageFile f ∉ (runPush env opts).2) ∧
      (∀ r, PushEvent.copyToRegistry r ∉ (runPush env opts).2) := by
  rcases collectFiles_error_of_missing opts.filenames n hmem with ⟨m, hm, herr⟩
  have hrun : runPush env opts = (Except.error ("failed to access " ++ m), []) := by
    cases hfn : opts.filenames with
    | nil => rw [hfn] at hm; cases hm
    | cons a as =>
      rw [hfn] at herr
      simp [runPush, hfn, herr]
  exact ⟨m, hm, hrun, by simp [hrun], by simp [hrun]⟩

theorem claim_C7_witness :
    ∃ m, ArgEntry.missing m ∈ optsMissingW.filenames ∧
      runPush envAllOkW optsMissingW = (Except.error ("failed to access " ++ m), []) ∧
      (∀ f, PushEvent.stageFile f ∉ (runPush envAllOkW optsMissingW).2) ∧
      (∀ r, PushEvent.copyToRegistry r ∉ (runPush envAllOkW optsMissingW).2) :=
  claim_C7_path_not_found envAllOkW optsMissingW "absent.yaml" (by simp [optsMissingW])

theorem runPush_tag_trace_aux (env : PushEnv) (files : List String) (str : List PushEvent)
    (layers : List Descriptor) (refT : String) (rest : List PushEvent) (ref : String)
    (hst : stageAll env files = (Except.ok layers, str))
    (hrest : ∀ r, PushEvent.tagManifest r ∉ rest)
    (htag : PushEvent.tagManifest ref ∈
      PushEvent.createStore ::
        (str ++ (PushEvent.packManifest :: PushEvent.tagManifest refT :: rest))) :
    ref = refT ∧
    ∃ pre post,
      PushEvent.createStore ::
          (str ++ (PushEvent.packManifest :: PushEvent.tagManifest refT :: rest)) =
        pre ++ PushEvent.tagManifest ref :: post ∧
      ∀ f ∈ files, PushEvent.stageFile f ∈ pre ∧ ∃ d, env.storeAdd f = Except.ok d := by
  have hstr : ∀ ev ∈ str, ∃ f2, ev = PushEvent.stageFile f2 :=
    fun ev hev => stageAll_events_stage env files ev (by rw [hst]; exact hev)
  have href : ref = refT := by
    rcases List.mem_cons.mp htag with h | h
    · simp at h
    · rcases List.mem_append.mp h with h2 | h2
      · rcases hstr _ h2 with ⟨f2, hf2⟩; simp at hf2
      · rcases List.mem_cons.mp h2 with h3 | h3
        · simp at h3
        · rcases List.mem_cons.mp h3 with h4 | h4
          · simpa using h4
          · exact absurd h4 (hrest ref)
  subst href
  refine ⟨rfl, PushEvent.createStore :: (str ++ [PushEvent.packManifest]), rest, by simp, ?_⟩
  intro f hf
  rcases stageAll_ok_mem env files layers str hst f hf with ⟨hex, hmem⟩
  exact ⟨by simp [hmem], hex⟩

/-- Claim C1: packing is all-or-nothing. Given the collected file list, if
staging any collected file fails, `RunPush` returns an error with no
manifest-pack, no tag and no copy event in its trace; and whenever a tag
event occurs in a trace, it carries the user-supplied reference and is
preceded by a successful staging event for every collected file. -/
theorem claim_C1_runPush_all_or_nothing (env : PushEnv) (opts : PushOptions) (files : List String)
    (hcol : collectFiles opts.filenames = Except.ok files) :
    (∀ f ∈ files, ∀ e, env.storeAdd f = Except.error e →
      ∃ msg tr, runPush env opts = (Except.error msg, tr) ∧
        PushEvent.packManifest ∉ tr ∧
        (∀ r, PushEvent.tagManifest r ∉ tr) ∧
        (∀ r, PushEvent.copyToRegistry r ∉ tr)) ∧
    (∀ res tr ref, runPush env opts = (res, tr) → PushEvent.tagManifest ref ∈ tr →
      ref = opts.reference ∧
      ∃ pre post, tr = pre ++ PushEvent.tagManifest ref :: post ∧
        ∀ f ∈ files, PushEvent.stageFile f ∈ pre ∧ ∃ d, env.storeAdd f = Except.ok d) := by
  constructor
  · intro f hf e hadd
    cases hfn : opts.filenames with
    | nil =>
      rw [hfn] at hcol
      simp only [collectFiles] at hcol
      injection hcol with h
      subst h
      exact absurd hf (List.not_mem_nil f)
    | cons a as =>
      rw [hfn] at hcol
      cases hfs : files with
      | nil => subst hfs; exact absurd hf (List.not_mem_nil f)
      | cons g gs =>
        subst hfs
        cases hnew : env.newStore with
        | error e2 =>
          refine ⟨"failed to create file store: " ++ e2, [PushEvent.createStore],
            by simp [runPush, hfn, hcol, hnew], by simp, by simp, by simp⟩
        | ok u =>
          rcases hq : stageAll env (g :: gs) with ⟨r, str⟩
          have hstr : ∀ ev ∈ str, ∃ f2, ev = PushEvent.stageFile f2 :=
            fun ev hev => stageAll_events_stage env (g :: gs) ev (by rw [hq]; exact hev)
          cases r with
          | ok layers =>
            rcases stageAll_error_of_mem env (g :: gs) f e hf hadd with ⟨msg, tr2, herr⟩
            rw [hq] at herr
            injection herr with h1 h2
            exact absurd h1 (by simp)
          | error e2 =>
            refine ⟨e2, PushEvent.createStore :: str,
              by simp [runPush, hfn, hcol, hnew, hq], ?_, ?_, ?_⟩
            · intro hmem
              rcases List.mem_cons.mp hmem with h | h
              · simp at h
              · rcases hstr _ h with ⟨f2, hf2⟩; simp at hf2
            · intro rr hmem
              rcases List.mem_cons.mp hmem with h | h
              · simp at h
              · rcases hstr _ h with ⟨f2, hf2⟩; simp at hf2
            · intro rr hmem
              rcases List.mem_cons.mp hmem with h | h
              · simp at h
              · rcases hstr _ h with ⟨f2, hf2⟩; simp at hf2
  · intro res tr ref hrun2 htag
    cases hfn : opts.filenames with
    | nil =>
      rw [hfn] at hcol
      simp only [collectFiles] at hcol
      injection hcol with h
      subst h
      have hrun : runPush env opts =
          (Except.error "no files specified, use -f to provide RGD files", []) := by
        simp [runPush, hfn]
      rw [hrun] at hrun2
      injection hrun2 with h1 h2
      subst h2
      exact absurd htag (List.not_mem_nil _)
    | cons a as =>
      rw [hfn] at hcol
      cases hfs : files with
      | nil =>
        subst hfs
        have hrun : runPush env opts =
            (Except.error "no YAML files found in specified paths", []) := by
          simp [runPush, hfn, hcol]
        rw [hrun] at hrun2
        injection hrun2 with h1 h2
        subst h2
        exact absurd htag (List.not_mem_nil _)
      | cons g gs =>
        subst hfs
        cases hnew : env.newStore with
        | error e2 =>
          have hrun : runPush env opts =
              (Except.error ("failed to create file store: " ++ e2),
                [PushEvent.createStore]) := by
            simp [runPush, hfn, hcol, hnew]
          rw [hrun] at hrun2
          injection hrun2 with h1 h2
          subst h2
          rcases List.mem_cons.mp htag with h | h
          · simp at h
          · exact absurd h (List.not_mem_nil _)
        | ok u =>
          rcases hq : stageAll env (g :: gs) with ⟨r, str⟩
          have hstr : ∀ ev ∈ str, ∃ f2, ev = PushEvent.stageFile f2 :=
            fun ev hev => stageAll_events_stage env (g :: gs) ev (by rw [hq]; exact hev)
          cases r with
          | error e2 =>
            have hrun : runPush env opts = (Except.error e2, PushEvent.createStore :: str) := by
              simp [runPush, hfn, hcol, hnew, hq]
            rw [hrun] at hrun2
            injection hrun2 with h1 h2
            subst h2
            rcases List.mem_cons.mp htag with h | h
            · simp at h
            · rcases hstr _ h with ⟨f2, hf2⟩; simp at hf2
          | ok layers =>
            cases hpk : env.packManifest layers with
            | error e2 =>
              have hrun : runPush env opts =
                  (Except.error ("failed to pack manifest: " ++ e2),
                    PushEvent.createStore :: (str ++ [PushEvent.packManifest])) := by
                simp [runPush, hfn, hcol, hnew, hq, hpk]
              rw [hrun] at hrun2
              injection hrun2 with h1 h2
              subst h2
              rcases List.mem_cons.mp htag with h | h
              · simp at h
              · rcases List.mem_append.mp h with h2 | h2
                · rcases hstr _ h2 with ⟨f2, hf2⟩; simp at hf2
                · simp at h2
            | ok manifestDesc =>
              cases htg : env.tagManifest manifestDesc opts.reference with
              | error e2 =>
                have hrun : runPush env opts =
                    (Except.error ("failed to tag manifest: " ++ e2),
                      PushEvent.createStore ::
                        (str ++ (PushEvent.packManifest ::
                          PushEvent.tagManifest opts.reference :: []))) := by
                  simp [runPush, hfn, hcol, hnew, hq, hpk, htg]
                rw [hrun] at hrun2
                injection hrun2 with h1 h2
                subst h2
                exact runPush_tag_trace_aux env (g :: gs) str layers opts.reference [] ref hq
                  (by simp) htag
              | ok v =>
                cases hsr : env.setupRepo opts.reference with
                | error e2 =>
                  have hrun : runPush env opts =
                      (Except.error e2,
                        PushEvent.createStore ::
                          (str ++ (PushEvent.packManifest ::
                            PushEvent.tagManifest opts.reference ::
                              [PushEvent.setupRepository]))) := by
                    simp [runPush, hfn, hcol, hnew, hq, hpk, htg, hsr]
                  rw [hrun] at hrun2
                  injection hrun2 with h1 h2
                  subst h2
                  exact runPush_tag_trace_aux env (g :: gs) str layers opts.reference
                    [PushEvent.setupRepository] ref hq (by simp) htag
                | ok repo =>
                  cases hcp : env.copy opts.reference with
                  | error e2 =>
                    have hrun : runPush env opts =
                        (Except.error ("failed to push artifact: " ++ e2),
                          PushEvent.createStore ::
                            (str ++ (PushEvent.packManifest ::
                              PushEvent.tagManifest opts.reference ::
                                [PushEvent.setupRepository,
                                  PushEvent.copyToRegistry opts.reference]))) := by
                      simp [runPush, hfn, hcol, hnew, hq, hpk, htg, hsr, hcp]
                    rw [hrun] at hrun2
                    injection hrun2 with h1 h2
                    subst h2
                    exact runPush_tag_trace_aux env (g :: gs) str layers opts.reference
                      [PushEvent.setupRepository, PushEvent.copyToRegistry opts.reference]
                      ref hq (by simp) htag
                  | ok w =>
                    have hrun : runPush env opts =
                        (Except.ok manifestDesc,
                          PushEvent.createStore ::
                            (str ++ (PushEvent.packManifest ::
                              PushEvent.tagManifest opts.reference ::
                                [PushEvent.setupRepository,
                                  PushEvent.copyToRegistry opts.reference]))) := by
                      simp [runPush, hfn, hcol, hnew, hq, hpk, htg, hsr, hcp]
                    rw [hrun] at hrun2
                    injection hrun2 with h1 h2
                    subst h2
                    exact runPush_tag_trace_aux env (g :: gs) str layers opts.reference
                      [PushEvent.setupRepository, PushEvent.copyToRegistry opts.reference]
                      ref hq (by simp) htag

theorem claim_C1_witness :
    ∃ msg tr, runPush envStageFailW optsOneFileW = (Except.error msg, tr) ∧
      PushEvent.packManifest ∉ tr ∧
      (∀ r, PushEvent.tagManifest r ∉ tr) ∧
      (∀ r, PushEvent.copyToRegistry r ∉ tr) :=
  (claim_C1_runPush_all_or_nothing envStageFailW optsOneFileW ["a.yaml"]
      (by simp [optsOneFileW, collectFiles])).1
    "a.yaml" (by simp) "permission denied" rfl

/-- Claim C8: on a successfully fetched and parsed manifest with zero
layers, `RunInspect` prints the no-ResourceGraphDefinitions message and
returns success. -/
theorem claim_C8_zero_layers (env : InspectEnv) (ref : RepoRef) (d : String) (m : Manifest)
    (h1 : env.setupRepo = Except.ok ref) (h2 : env.fetchReference = Except.ok d)
    (h3 : env.readAll = Except.ok ()) (h4 : env.unmarshalManifest = Except.ok m)
    (h5 : m.layers = []) :
    (runInspect env).1 = Except.ok () ∧
    "No ResourceGraphDefinitions found in artifact" ∈ (runInspect env).2 := by
  have hrun : runInspect env =
      (Except.ok (),
        (["Artifact:  " ++ (if ref.reference ≠ "" then ref.repository ++ ":" ++ ref.reference
            else ref.repository),
          "Registry:  " ++ ref.host,
          "Digest:    " ++ d] ++ createdLines env.parseRFC3339 m) ++
          ["", "No ResourceGraphDefinitions found in artifact"]) := by
    simp [runInspect, h1, h2, h3, h4, h5]
  rw [hrun]
  simp

theorem claim_C8_witness :
    (runInspect inspectEnvEmptyW).1 = Except.ok () ∧
    "No ResourceGraphDefinitions found in artifact" ∈ (runInspect inspectEnvEmptyW).2 :=
  claim_C8_zero_layers inspectEnvEmptyW repoRefW "sha256:mani" manifestEmptyW
    rfl rfl rfl rfl rfl

/-- Claim C9: a missing or malformed creation-timestamp annotation never
makes `RunInspect` fail — the run still succeeds and the `Created:` block
is empty (skipped without any reported error). -/
theorem claim_C9_created_optional (env : InspectEnv) (ref : RepoRef) (d : String) (m : Manifest)
    (h1 : env.setupRepo = Except.ok ref) (h2 : env.fetchReference = Except.ok d)
    (h3 : env.readAll = Except.ok ()) (h4 : env.unmarshalManifest = Except.ok m)
    (h5 : m.config.annotations = none ∨
      ∃ annots, m.config.annotations = some annots ∧
        (annots.lookup AnnotationCreated = none ∨
          ∃ created, annots.lookup AnnotationCreated = some created ∧
            env.parseRFC3339 created = none)) :
    (runInspect env).1 = Except.ok () ∧
    createdLines env.parseRFC3339 m = [] := by
  have hcreated : createdLines env.parseRFC3339 m = [] := by
    rcases h5 with h | ⟨annots, ha, h⟩
    · simp [createdLines, h]
    · rcases h with h | ⟨created, hc, hp⟩
      · simp [createdLines, ha, h]
      · simp [createdLines, ha, hc, hp]
  refine ⟨?_, hcreated⟩
  simp only [runInspect, h1, h2, h3, h4]
  by_cases hl : m.layers.isEmpty <;> simp [hl]

theorem claim_C9_witness :
    (runInspect inspectEnvNoTitleW).1 = Except.ok () ∧
    createdLines inspectEnvNoTitleW.parseRFC3339 manifestNoTitleW = [] :=
  claim_C9_created_optional inspectEnvNoTitleW repoRefW "sha256:mani" manifestNoTitleW
    rfl rfl rfl rfl
    (Or.inr ⟨[(AnnotationCreated, "not-a-timestamp")], rfl,
      Or.inr ⟨"not-a-timestamp", rfl, rfl⟩⟩)

/-- Claim C10: a layer with no annotations map, or with no title
annotation, is rendered with the literal name `unknown`; its row still
appears in the listing. -/
theorem claim_C10_unknown_layer_name (env : InspectEnv) (ref : RepoRef) (d : String)
    (m : Manifest) (l : OCIDescriptor)
    (h1 : env.setupRepo = Except.ok ref) (h2 : env.fetchReference = Except.ok d)
    (h3 : env.readAll = Except.ok ()) (h4 : env.unmarshalManifest = Except.ok m)
    (hl : l ∈ m.layers)
    (ht : l.annotations = none ∨
      ∃ annots, l.annotations = some annots ∧ annots.lookup AnnotationTitle = none) :
    layerName l = "unknown" ∧
    ("unknown" ++ "\t" ++ l.digest) ∈ (runInspect env).2 := by
  have hname : layerName l = "unknown" := by
    rcases ht with h | ⟨annots, ha, h⟩
    · simp [layerName, h]
    · simp [layerName, ha, h]
  refine ⟨hname, ?_⟩
  have hne : m.layers.isEmpty = false := by
    cases hq : m.layers with
    | nil => rw [hq] at hl; cases hl
    | cons x xs => simp
  simp only [runInspect, h1, h2, h3, h4, hne]
  simp only [Bool.false_eq_true, if_false]
  refine List.mem_append_right _ ?_
  rw [← hname]
  exact List.mem_map_of_mem _ hl

theorem claim_C10_witness :
    layerName { digest := "sha256:layer0", annotations := none } = "unknown" ∧
    ("unknown" ++ "\t" ++ "sha256:layer0") ∈ (runInspect inspectEnvNoTitleW).2 :=
  claim_C10_unknown_layer_name inspectEnvNoTitleW repoRefW "sha256:mani" manifestNoTitleW
    { digest := "sha256:layer0", annotations := none }
    rfl rfl rfl rfl (by simp [manifestNoTitleW]) (Or.inl rfl)
